import Mathlib

/-!
Shallow embedding of the SKYNOTE weather-data module
(`src/ai/genkit.ts`): the input schema, cache-key derivation, the
in-memory TTL cache, the condition mapping, and the fetch-and-normalize
pipeline (`getWeatherDataFlow` / `getWeatherData`).

Modelling conventions:
  * JavaScript numbers are modelled as exact rationals (`ℚ`); every value
    the claims touch is far from a binary-rounding tie, so the `Float`
    error does not affect any statement here.
  * `Math.round x` is `⌊x + 1/2⌋` (JS rounds half toward +∞).
  * `-Infinity` / `Infinity` (the seeds of the daily high/low folds) are
    the extra constructors of `JsNum`.
  * The network is an oracle in the environment (`FlowEnv`): each fetch
    yields either a parsed payload or an HTTP failure (status, body).
    The flow also returns the list of fetches it issued, so "before any
    HTTP request" is the statement that this trace is empty.
  * `Intl` time formatting and `date-fns` `format(.., 'EEE')` are
    opaque formatting functions carried in the environment; no claim
    depends on the concrete strings they produce.
  * The module-level `Map` cache is an association list with unique keys
    (a JS `Map` cannot hold a key twice); `Map.set` replaces in place,
    preserving insertion order, exactly as JS does.
-/

/-- The application's weather-condition enum
(`'Sunny' | 'Cloudy' | 'Rainy' | 'Snowy' | 'Thunderstorm' | 'Fog' | 'Haze'`). -/
inductive WeatherCondition where
  | Sunny
  | Cloudy
  | Rainy
  | Snowy
  | Thunderstorm
  | Fog
  | Haze
deriving DecidableEq, Repr

/-- `mapWeatherCondition` from genkit.ts: the fixed lookup table from the
provider's `weather[0].main` string, with `'Sunny'` for any unmapped string
(`mapping[main] || 'Sunny'`). -/
def mapWeatherCondition (main : String) : WeatherCondition :=
  if main = "Clear" then .Sunny
  else if main = "Clouds" then .Cloudy
  else if main = "Rain" then .Rainy
  else if main = "Drizzle" then .Rainy
  else if main = "Snow" then .Snowy
  else if main = "Thunderstorm" then .Thunderstorm
  else if main = "Mist" then .Fog
  else if main = "Fog" then .Fog
  else if main = "Haze" then .Haze
  else .Sunny

/-- JS `Math.round` on a finite number: round half toward positive infinity. -/
def jsRound (q : ℚ) : ℤ := ⌊q + 1/2⌋

/-- A JS number as the daily fold sees it: finite, or one of the infinities
used as fold seeds (`tempHigh: -Infinity`, `tempLow: Infinity`). -/
inductive JsNum where
  | negInf
  | posInf
  | num (q : ℚ)
deriving DecidableEq, Repr

/-- JS `Math.max` of a `JsNum` accumulator and a finite sample value. -/
def jsMax : JsNum → ℚ → JsNum
  | .negInf, q => .num q
  | .posInf, _ => .posInf
  | .num p, q => .num (max p q)

/-- JS `Math.min` of a `JsNum` accumulator and a finite sample value. -/
def jsMin : JsNum → ℚ → JsNum
  | .negInf, _ => .negInf
  | .posInf, q => .num q
  | .num p, q => .num (min p q)

/-- `Math.round` lifted to `JsNum`. The infinite cases never reach the output
(every day group is seeded and immediately folded with its first sample, so
its high/low are finite); JS would keep the infinity there, which is no
integer, and we map it to 0 as an arbitrary placeholder. -/
def jsRoundNum : JsNum → ℤ
  | .negInf => 0
  | .posInf => 0
  | .num q => jsRound q

/-- The whitespace JS `String.prototype.trim` strips (ASCII fragment). -/
def isJsSpace (c : Char) : Bool :=
  c = ' ' || c = '\t' || c = '\n' || c = '\r' || c = '\x0b' || c = '\x0c'

/-- JS `String.prototype.trim`: drop leading and trailing whitespace. -/
def jsTrim (s : String) : String :=
  ⟨((s.data.dropWhile isJsSpace).reverse.dropWhile isJsSpace).reverse⟩

/-- JS `String.prototype.toLowerCase`, restricted to ASCII letters (the only
case-carrying characters the claims use). -/
def jsToLower (s : String) : String :=
  ⟨s.data.map Char.toLower⟩

/-- Two-decimal-digit rendering of `n % 100` for `toFixed(2)`. -/
def twoDigits (n : ℕ) : String :=
  if n < 10 then "0" ++ toString n else toString n

/-- `toFixed(2)` of a non-negative rational: the numerator of the closest
hundredth, ties toward the larger (ECMAScript `Number.prototype.toFixed`). -/
def fixed2abs (q : ℚ) : String :=
  toString ((⌊100 * q + 1/2⌋).toNat / 100) ++ "." ++ twoDigits ((⌊100 * q + 1/2⌋).toNat % 100)

/-- JS `x.toFixed(2)`: a leading `-` for negative input, then the rounded
absolute value (so overall: round half away from zero, two decimals). -/
def toFixed2 (q : ℚ) : String :=
  if q < 0 then "-" ++ fixed2abs (-q) else fixed2abs q

/-- `GetWeatherDataInput`: `{ location?: string, lat?: number, lon?: number }`. -/
structure GetWeatherDataInput where
  location : Option String
  lat : Option ℚ
  lon : Option ℚ
deriving DecidableEq, Repr

/-- JS truthiness of `input.location`: present and not the empty string. -/
def truthyLoc (input : GetWeatherDataInput) : Bool :=
  match input.location with
  | some s => s ≠ ""
  | none => false

/-- `typeof input.lat === 'number' && typeof input.lon === 'number'`. -/
def hasCoords (input : GetWeatherDataInput) : Bool :=
  input.lat.isSome && input.lon.isSome

/-- The coordinate arm of `getCacheKey`:
`` `${lat.toFixed(2)}:${lon.toFixed(2)}` `` when both coordinates are
numbers, else the function's final `return null`. -/
def coordKey (input : GetWeatherDataInput) : Option String :=
  match input.lat, input.lon with
  | some la, some lo => some (toFixed2 la ++ ":" ++ toFixed2 lo)
  | _, _ => none

/-- `getCacheKey` from genkit.ts: a truthy location yields
`location.trim().toLowerCase()`; otherwise a full coordinate pair yields the
two-decimal `lat:lon` string; otherwise `null`. -/
def getCacheKey (input : GetWeatherDataInput) : Option String :=
  match input.location with
  | some s => if s ≠ "" then some (jsToLower (jsTrim s)) else coordKey input
  | none => coordKey input

/-- The parsed current-weather payload the flow reads
(`coord`, `name`, `weather[0].main`, `main.*`, `wind.speed`, `sys.*`, `dt`). -/
structure CurrentWeather where
  coordLat : ℚ
  coordLon : ℚ
  name : String
  main : String
  temp : ℚ
  feels_like : ℚ
  humidity : ℚ
  wind_speed : ℚ
  sunrise : ℤ
  sunset : ℤ
  dt : ℤ
deriving DecidableEq, Repr

/-- One 3-hour forecast sample from the provider's `list[]`. -/
structure ForecastSample where
  dt : ℤ
  main : String
  temp : ℚ
  temp_max : ℚ
  temp_min : ℚ
  humidity : ℚ
  wind_speed : ℚ
deriving DecidableEq, Repr

/-- The parsed forecast payload: `city.timezone` and the sample list. -/
structure Forecast where
  timezone : ℤ
  list : List ForecastSample
deriving DecidableEq, Repr

/-- The outcome of one `fetch`: a parsed payload on `response.ok`, or the
HTTP status together with the raw `response.text()` body. -/
inductive FetchResult (α : Type) where
  | ok (value : α)
  | httpError (status : ℕ) (body : String)
deriving DecidableEq, Repr

/-- Which provider endpoint a `fetch` hit; the flow's trace lists them in
issue order. -/
inductive FetchCall where
  | weather
  | forecast
deriving DecidableEq, Repr

/-- The ambient state one `getWeatherData` call runs in: the network oracle,
the call-time clock (`Date.now()`, milliseconds), and the opaque time/day
formatting functions (`Intl.DateTimeFormat`, date-fns `format`). -/
structure FlowEnv where
  weatherResp : FetchResult CurrentWeather
  forecastResp : FetchResult Forecast
  nowMs : ℤ
  fmtHour : ℤ → ℤ → String
  fmtClock : ℤ → ℤ → String
  dayLabel : ℤ → String

/-- One entry of the output's `hourly` array. -/
structure HourlyData where
  time : String
  condition : WeatherCondition
  temperature : ℤ
  windSpeed : ℤ
  humidity : ℤ
deriving DecidableEq, Repr

/-- One entry of the output's 7-day `forecast` array (`DailyDataSchema`),
after rounding. -/
structure DailyData where
  day : String
  condition : WeatherCondition
  tempHigh : ℤ
  tempLow : ℤ
  humidity : ℤ
deriving DecidableEq, Repr

/-- `GetWeatherDataOutputSchema`: the normalized snapshot. -/
structure GetWeatherDataOutput where
  location : String
  condition : WeatherCondition
  temperature : ℤ
  feelsLike : ℤ
  humidity : ℤ
  windSpeed : ℤ
  sunrise : String
  sunset : String
  currentTime : String
  forecast : List DailyData
  hourly : List HourlyData
deriving DecidableEq, Repr

/-- One hourly entry built from a sample: local-time label, mapped condition,
rounded temperature, wind `m/s × 3.6 → km/h` rounded, rounded humidity. -/
def mkHourly (fmtHour : ℤ → ℤ → String) (tz : ℤ) (s : ForecastSample) : HourlyData :=
  { time := fmtHour s.dt tz
    condition := mapWeatherCondition s.main
    temperature := jsRound s.temp
    windSpeed := jsRound (s.wind_speed * (18/5))
    humidity := jsRound s.humidity }

/-- The `hourly` construction: filter the samples whose timestamp is at most
24 hours after the call time (`new Date(h.dt * 1000) <= twentyFourHoursFromNow`),
`slice(0, 8)`, then map to hourly entries. -/
def buildHourly (fmtHour : ℤ → ℤ → String) (tz nowMs : ℤ)
    (l : List ForecastSample) : List HourlyData :=
  ((l.filter (fun h => h.dt * 1000 ≤ nowMs + 24 * 60 * 60 * 1000)).take 8).map
    (mkHourly fmtHour tz)

/-- The in-progress value of `dailyForecasts[day]` before rounding: the JS
object holds possibly-infinite `tempHigh`/`tempLow` seeds. -/
structure DailyAcc where
  day : String
  condition : WeatherCondition
  tempHigh : JsNum
  tempLow : JsNum
  humidity : ℚ
deriving DecidableEq, Repr

/-- The fresh `dailyForecasts[day]` object created when a day label is first
seen: condition from that first sample, `-Infinity` / `Infinity` seeds,
humidity 0. -/
def initAcc (day : String) (item : ForecastSample) : DailyAcc :=
  { day := day
    condition := mapWeatherCondition item.main
    tempHigh := .negInf
    tempLow := .posInf
    humidity := 0 }

/-- The three per-sample assignments of the daily loop: rolling max of
`temp_max`, rolling min of `temp_min`, and
`humidity = (humidity + item.main.humidity) / 2`. -/
def updAcc (acc : DailyAcc) (item : ForecastSample) : DailyAcc :=
  { acc with
    tempHigh := jsMax acc.tempHigh item.temp_max
    tempLow := jsMin acc.tempLow item.temp_min
    humidity := (acc.humidity + item.humidity) / 2 }

/-- Lookup in an insertion-ordered string-keyed map (a JS record or `Map`). -/
def lookupL {α : Type} : List (String × α) → String → Option α
  | [], _ => none
  | (k, v) :: rest, key => if k = key then some v else lookupL rest key

/-- Point update of such a map at one key (a JS property assignment): the
binding under `key` gets `f` applied, every other binding and the order are
untouched. -/
def updateL {α : Type} : List (String × α) → String → (α → α) → List (String × α)
  | [], _, _ => []
  | (k, v) :: rest, key, f =>
    if k = key then (k, f v) :: updateL rest key f
    else (k, v) :: updateL rest key f

/-- One iteration of `forecastData.list.forEach`: create the day's entry if
the label is new (appended, preserving first-seen order, as JS records keep
insertion order for non-index string keys), then apply the three updates. -/
def dailyStep (label : ℤ → String) (m : List (String × DailyAcc))
    (item : ForecastSample) : List (String × DailyAcc) :=
  let day := label item.dt
  let m1 := if (lookupL m day).isSome then m else m ++ [(day, initAcc day item)]
  updateL m1 day (fun acc => updAcc acc item)

/-- The whole `forEach` over the sample list, from the empty record. -/
def dailyFold (label : ℤ → String) (l : List ForecastSample) :
    List (String × DailyAcc) :=
  l.foldl (dailyStep label) []

/-- The per-day rounding in `Object.values(dailyForecasts).slice(0, 7).map`. -/
def roundAcc (acc : DailyAcc) : DailyData :=
  { day := acc.day
    condition := acc.condition
    tempHigh := jsRoundNum acc.tempHigh
    tempLow := jsRoundNum acc.tempLow
    humidity := jsRound acc.humidity }

/-- The output `forecast` array: the first 7 day groups in first-seen order,
rounded. -/
def buildForecast (label : ℤ → String) (l : List ForecastSample) :
    List DailyData :=
  ((dailyFold label l).take 7).map (fun kv => roundAcc kv.2)

/-- `transformedData`: the assembled snapshot (with the
`locationName || 'Current Location'` fallback). -/
def buildOutput (env : FlowEnv) (wd : CurrentWeather) (fd : Forecast) :
    GetWeatherDataOutput :=
  { location := if wd.name = "" then "Current Location" else wd.name
    condition := mapWeatherCondition wd.main
    temperature := jsRound wd.temp
    feelsLike := jsRound wd.feels_like
    humidity := jsRound wd.humidity
    windSpeed := jsRound (wd.wind_speed * (18/5))
    sunrise := env.fmtClock wd.sunrise fd.timezone
    sunset := env.fmtClock wd.sunset fd.timezone
    currentTime := env.fmtClock wd.dt fd.timezone
    forecast := buildForecast env.dayLabel fd.list
    hourly := buildHourly env.fmtHour fd.timezone env.nowMs fd.list }

/-- The flow body's validation-failure message. -/
def validationMsg : String := "Either location or both lat and lon must be provided."

/-- The error thrown on a non-ok current-weather response, carrying the HTTP
status and the raw body text. -/
def weatherFailMsg (status : ℕ) (body : String) : String :=
  "OpenWeather API request failed with status " ++ toString status ++ ": " ++ body

/-- The error thrown on a non-ok forecast response, carrying the HTTP status
and the raw body text. -/
def forecastFailMsg (status : ℕ) (body : String) : String :=
  "OpenWeather Forecast API request failed with status " ++ toString status ++ ": " ++ body

/-- `getWeatherDataFlow`: validate the input shape (truthy `location`, or
both coordinates present, else throw before any fetch), fetch the current
weather, fetch the forecast, and assemble the snapshot. The second component
is the trace of fetches issued, in order. -/
def getWeatherDataFlow (env : FlowEnv) (input : GetWeatherDataInput) :
    Except String GetWeatherDataOutput × List FetchCall :=
  if truthyLoc input || hasCoords input then
    match env.weatherResp with
    | .httpError status body => (.error (weatherFailMsg status body), [.weather])
    | .ok wd =>
      match env.forecastResp with
      | .httpError status body =>
        (.error (forecastFailMsg status body), [.weather, .forecast])
      | .ok fd => (.ok (buildOutput env wd fd), [.weather, .forecast])
  else (.error validationMsg, [])

/-- One value of the `weatherCache` map: the snapshot and its absolute
expiry time in milliseconds. -/
structure CacheEntry where
  data : GetWeatherDataOutput
  expiry : ℤ
deriving DecidableEq, Repr

/-- The module-level `weatherCache : Map<string, CacheEntry>`, as an
insertion-ordered association list (a JS `Map` holds each key once). -/
abbrev Cache := List (String × CacheEntry)

/-- `CACHE_TTL_MS = 5 * 60 * 1000` (5 minutes). -/
def CACHE_TTL_MS : ℤ := 5 * 60 * 1000

/-- `Map.prototype.set`: replace in place if the key exists, else append. -/
def setL {α : Type} : List (String × α) → String → α → List (String × α)
  | [], key, e => [(key, e)]
  | (k, v) :: rest, key, e =>
    if k = key then (key, e) :: rest else (k, v) :: setL rest key e

/-- `Map.prototype.delete` of one key. -/
def eraseL {α : Type} : List (String × α) → String → List (String × α)
  | [], _ => []
  | (k, v) :: rest, key => if k = key then rest else (k, v) :: eraseL rest key

/-- `getCachedWeather`: a present, unexpired entry yields its data; an entry
with `expiry <= Date.now()` is deleted and the lookup misses; an absent key
misses. Returns the possibly-updated cache alongside the result. -/
def getCachedWeather (c : Cache) (key : String) (now : ℤ) :
    Option GetWeatherDataOutput × Cache :=
  match lookupL c key with
  | none => (none, c)
  | some e => if e.expiry ≤ now then (none, eraseL c key) else (some e.data, c)

/-- `setCachedWeather`: store the snapshot with `expiry = Date.now() + CACHE_TTL_MS`. -/
def setCachedWeather (c : Cache) (key : String) (d : GetWeatherDataOutput)
    (now : ℤ) : Cache :=
  setL c key { data := d, expiry := now + CACHE_TTL_MS }

/-- `getWeatherData`: derive the cache key; when it is truthy (neither
`null` nor the empty string) consult the cache, on a hit return the cached
snapshot with no fetch, on a miss run the flow and — only on success —
store the result; when the key is not truthy, bypass the cache entirely.
Returns (result, cache after the call, fetches issued). -/
def getWeatherData (env : FlowEnv) (c : Cache) (input : GetWeatherDataInput) :
    Except String GetWeatherDataOutput × Cache × List FetchCall :=
  match getCacheKey input with
  | some key =>
    if key = "" then
      let r := getWeatherDataFlow env input
      (r.1, c, r.2)
    else
      match getCachedWeather c key env.nowMs with
      | (some d, c1) => (.ok d, c1, [])
      | (none, c1) =>
        match getWeatherDataFlow env input with
        | (.ok r, tr) => (.ok r, setCachedWeather c1 key r env.nowMs, tr)
        | (.error e, tr) => (.error e, c1, tr)
  | none =>
    let r := getWeatherDataFlow env input
    (r.1, c, r.2)

/-- The first-seen key order of a stream of day labels: the keys a JS record
acquires, in insertion order, as `addKeys` consumes the labels. -/
def addKeys (ks : List String) : List String → List String
  | [] => ks
  | d :: ds => addKeys (if d ∈ ks then ks else ks ++ [d]) ds

/-- A minimal concrete snapshot, used as a cache value in witnesses. -/
def outFix : GetWeatherDataOutput :=
  { location := "X", condition := .Sunny, temperature := 0, feelsLike := 0,
    humidity := 0, windSpeed := 0, sunrise := "", sunset := "", currentTime := "",
    forecast := [], hourly := [] }

/-- A concrete time formatting function for witness environments. -/
def fmtFix : ℤ → ℤ → String := fun _ _ => "t"

/-- A concrete day labeling that puts every sample on the same day. -/
def lblFix : ℤ → String := fun _ => "Mon"

/-- The mocked Paris current-weather payload: `weather[0].main = "Rain"`,
`main.temp = 18.4`. -/
def wdParis : CurrentWeather :=
  { coordLat := 48.85, coordLon := 2.35, name := "Paris", main := "Rain",
    temp := 18.4, feels_like := 17, humidity := 60, wind_speed := 5,
    sunrise := 0, sunset := 0, dt := 0 }

/-- An empty mocked forecast payload. -/
def fdEmpty : Forecast := { timezone := 0, list := [] }

/-- A witness environment with both provider calls succeeding (Paris data). -/
def envParis : FlowEnv :=
  { weatherResp := .ok wdParis, forecastResp := .ok fdEmpty, nowMs := 0,
    fmtHour := fmtFix, fmtClock := fmtFix, dayLabel := lblFix }

/-- The query `{location: "Paris"}`. -/
def inpParis : GetWeatherDataInput := ⟨some "Paris", none, none⟩

/-- An input providing both a location string and a full coordinate pair. -/
def inpBoth : GetWeatherDataInput := ⟨some "London", some 1, some 2⟩

/-- An environment whose current-weather call fails with HTTP 500. -/
def envFail : FlowEnv :=
  { weatherResp := .httpError 500 "boom", forecastResp := .ok fdEmpty,
    nowMs := 1000000, fmtHour := fmtFix, fmtClock := fmtFix, dayLabel := lblFix }

/-- A cache holding an entry for "paris" that expired at time 0. -/
def cExpired : Cache := [("paris", { data := outFix, expiry := 0 })]

/-- A forecast sample at timestamp `t` (seconds) with fixed weather fields. -/
def sampAt (t : ℤ) : ForecastSample :=
  { dt := t, main := "Clear", temp := 10, temp_max := 12, temp_min := 8,
    humidity := 50, wind_speed := 2 }

/-- A forecast whose sample list straddles the 24-hour boundary from time 0:
nine samples inside the window and two beyond it. -/
def fdHourly : Forecast :=
  { timezone := 0,
    list := [sampAt 0, sampAt 10800, sampAt 21600, sampAt 32400, sampAt 43200,
             sampAt 54000, sampAt 64800, sampAt 75600, sampAt 86400,
             sampAt 90000, sampAt 97200] }

/-- A witness environment for the hourly aggregation, at call time 0. -/
def envHourly : FlowEnv :=
  { weatherResp := .ok wdParis, forecastResp := .ok fdHourly, nowMs := 0,
    fmtHour := fmtFix, fmtClock := fmtFix, dayLabel := lblFix }

/-- A same-day forecast sample with given max temp, min temp and humidity. -/
def sampDay (mx mn h : ℚ) : ForecastSample :=
  { dt := 0, main := "Clear", temp := 0, temp_max := mx, temp_min := mn,
    humidity := h, wind_speed := 0 }

/-- The synthetic 3-sample day of the spec: max temps [10, 15, 5], min temps
[2, -1, 4], humidities [50, 60, 70]. -/
def dayList3 : List ForecastSample :=
  [sampDay 10 2 50, sampDay 15 (-1) 60, sampDay 5 4 70]

/-- A day consisting of a single sample with humidity 51. -/
def dayList1 : List ForecastSample := [sampDay 0 0 51]

/-- Coordinate query (51.507, -0.1278). -/
def q51a : GetWeatherDataInput := ⟨none, some (51.507 : ℚ), some (-0.1278 : ℚ)⟩

/-- Coordinate query (51.5074, -0.12781). -/
def q51b : GetWeatherDataInput := ⟨none, some (51.5074 : ℚ), some (-0.12781 : ℚ)⟩

/-- The value a day-group key holds after the fold, as a function of the
initial binding and the day's samples in order: an existing binding is
folded further; a missing binding with no samples stays missing; a missing
binding is created from the first sample and then folded with every sample
of the day, the first included. -/
def groupOut (k : String) : Option DailyAcc → List ForecastSample → Option DailyAcc
  | some a, fs => some (fs.foldl updAcc a)
  | none, [] => none
  | none, f :: fs => some (fs.foldl updAcc (updAcc (initAcc k f) f))

/-- The daily summary the 3-sample synthetic day produces: pairwise-averaged
humidity (((0+50)/2+60)/2+70)/2 = 56.25, rounded to 56. -/
def dW3 : DailyData :=
  { day := "Mon", condition := .Sunny, tempHigh := 15, tempLow := -1,
    humidity := 56 }

/-- The daily summary the single-sample day (humidity 51) produces. -/
def dW9 : DailyData :=
  { day := "Mon", condition := .Sunny, tempHigh := 0, tempLow := 0,
    humidity := 26 }

theorem lookupL_setL_self {α : Type} (c : List (String × α)) (k : String) (e : α) :
    lookupL (setL c k e) k = some e := by
  induction c with
  | nil => simp [setL, lookupL]
  | cons kv rest ih =>
    obtain ⟨k', e'⟩ := kv
    by_cases h : k' = k <;> simp [setL, lookupL, h, ih]

theorem lookupL_eq_none_iff {α : Type} (c : List (String × α)) (k : String) :
    lookupL c k = none ↔ k ∉ c.map Prod.fst := by
  induction c with
  | nil => simp [lookupL]
  | cons kv rest ih =>
    obtain ⟨k', e'⟩ := kv
    simp only [lookupL, List.map_cons, List.mem_cons, not_or]
    by_cases h : k' = k
    · subst h; simp
    · rw [if_neg h, ih]
      exact ⟨fun hn => ⟨fun he => h he.symm, hn⟩, fun hp => hp.2⟩

theorem lookupL_eraseL_self {α : Type} (c : List (String × α)) (k : String)
    (hnd : (c.map Prod.fst).Nodup) : lookupL (eraseL c k) k = none := by
  induction c with
  | nil => simp [eraseL, lookupL]
  | cons kv rest ih =>
    obtain ⟨k', e'⟩ := kv
    simp only [List.map_cons, List.nodup_cons] at hnd
    by_cases h : k' = k
    · subst h
      simp only [eraseL, if_pos rfl]
      exact (lookupL_eq_none_iff rest k').mpr hnd.1
    · simp [eraseL, lookupL, h, ih hnd.2]

theorem eraseL_sublist {α : Type} (c : List (String × α)) (k : String) :
    (eraseL c k).Sublist c := by
  induction c with
  | nil => simp [eraseL]
  | cons kv rest ih =>
    obtain ⟨k', e'⟩ := kv
    by_cases h : k' = k
    · simp [eraseL, h]
    · simp only [eraseL, if_neg h]
      exact List.Sublist.cons₂ _ ih

theorem getCachedWeather_snd_sublist (c : Cache) (k : String) (now : ℤ) :
    (getCachedWeather c k now).2.Sublist c := by
  unfold getCachedWeather
  cases h : lookupL c k with
  | none => simp
  | some e =>
    by_cases he : e.expiry ≤ now
    · simpa [he] using eraseL_sublist c k
    · simp [he]

theorem valid_of_cacheKey (input : GetWeatherDataInput) (k : String)
    (h : getCacheKey input = some k) : (truthyLoc input || hasCoords input) = true := by
  obtain ⟨loc, la, lo⟩ := input
  cases loc with
  | none =>
    cases la <;> cases lo <;>
      simp_all [getCacheKey, coordKey, truthyLoc, hasCoords]
  | some s =>
    by_cases hs : s = "" <;> cases la <;> cases lo <;>
      simp_all [getCacheKey, coordKey, truthyLoc, hasCoords]

theorem flow_trace_ne_nil (env : FlowEnv) (input : GetWeatherDataInput)
    (h : (truthyLoc input || hasCoords input) = true) :
    (getWeatherDataFlow env input).2 ≠ [] := by
  unfold getWeatherDataFlow
  rw [if_pos h]
  cases env.weatherResp <;> cases env.forecastResp <;> simp

theorem map_fst_setL {α : Type} (c : List (String × α)) (k : String) (e : α) :
    (setL c k e).map Prod.fst =
      if k ∈ c.map Prod.fst then c.map Prod.fst else c.map Prod.fst ++ [k] := by
  induction c with
  | nil => simp [setL]
  | cons kv rest ih =>
    obtain ⟨k', e'⟩ := kv
    by_cases h : k' = k
    · subst h; simp [setL]
    · have h' : ¬k = k' := fun he => h he.symm
      by_cases hm : k ∈ rest.map Prod.fst <;>
        simp [setL, h, h', ih, hm]

theorem nodup_setL {α : Type} (c : List (String × α)) (k : String) (e : α)
    (h : (c.map Prod.fst).Nodup) : ((setL c k e).map Prod.fst).Nodup := by
  rw [map_fst_setL]
  by_cases hm : k ∈ c.map Prod.fst
  · simp [hm, h]
  · simp [hm, List.nodup_append, h]

theorem get_after_put_hit (c : Cache) (k : String) (v : GetWeatherDataOutput)
    (now t : ℤ) (h : t < now + CACHE_TTL_MS) :
    getCachedWeather (setCachedWeather c k v now) k t =
      (some v, setCachedWeather c k v now) := by
  unfold getCachedWeather setCachedWeather
  rw [lookupL_setL_self]
  simp [not_le.mpr h]

/-- C1 (amended): the flow validates that at least one of a truthy location
or a full coordinate pair is present: it fails with the validation error
before any HTTP request is issued exactly when neither form is present.
(The original claim's "exactly one" is refuted by
`validation_both_forms_accepted_cex`.) -/
theorem validation_requires_at_least_one_form (env : FlowEnv)
    (input : GetWeatherDataInput) :
    getWeatherDataFlow env input = (.error validationMsg, []) ↔
      (truthyLoc input || hasCoords input) = false := by
  unfold getWeatherDataFlow
  by_cases h : (truthyLoc input || hasCoords input) = true
  · rw [if_pos h]
    have hr : ¬(truthyLoc input || hasCoords input) = false := by simp [h]
    cases env.weatherResp <;> cases env.forecastResp <;> simp [hr]
  · simp only [Bool.not_eq_true] at h
    rw [if_neg (by simp [h])]
    simp [h]

/-- C1 counterexample: an input with both a location string and a full
coordinate pair passes validation and the flow issues HTTP requests, so the
claim that such an input "fails with a validation error before any HTTP
request" is false on the code. -/
theorem validation_both_forms_accepted_cex :
    truthyLoc inpBoth = true ∧ hasCoords inpBoth = true ∧
    (getWeatherDataFlow envParis inpBoth).2 ≠ [] ∧
    (getWeatherDataFlow envParis inpBoth).1 ≠ .error validationMsg := by
  refine ⟨rfl, rfl, ?_, ?_⟩ <;>
    simp [getWeatherDataFlow, envParis, truthyLoc, hasCoords, inpBoth]

/-- C2: `put` stores the snapshot with expiry = put time + 5 minutes,
overwriting any entry under that key; a `get` strictly before the expiry
returns exactly the stored snapshot and leaves the cache as it was; a `get`
at or after the expiry reports absent and removes the entry; and after the
expiry a `getWeatherData` call for that key issues fetches again. -/
theorem cache_put_get_ttl (c : Cache) (k : String) (v : GetWeatherDataOutput)
    (now t : ℤ) (hnd : (c.map Prod.fst).Nodup) :
    lookupL (setCachedWeather c k v now) k =
        some { data := v, expiry := now + CACHE_TTL_MS } ∧
    (t < now + CACHE_TTL_MS →
      getCachedWeather (setCachedWeather c k v now) k t =
        (some v, setCachedWeather c k v now)) ∧
    (now + CACHE_TTL_MS ≤ t →
      (getCachedWeather (setCachedWeather c k v now) k t).1 = none ∧
      lookupL (getCachedWeather (setCachedWeather c k v now) k t).2 k = none) ∧
    (now + CACHE_TTL_MS ≤ t →
      ∀ (env : FlowEnv) (input : GetWeatherDataInput),
        env.nowMs = t → getCacheKey input = some k → k ≠ "" →
        (getWeatherData env (setCachedWeather c k v now) input).2.2 ≠ []) := by
  have hl := lookupL_setL_self c k
    ({ data := v, expiry := now + CACHE_TTL_MS } : CacheEntry)
  refine ⟨hl, fun h => get_after_put_hit c k v now t h, fun h => ?_, ?_⟩
  · have hg : getCachedWeather (setCachedWeather c k v now) k t =
        (none, eraseL (setCachedWeather c k v now) k) := by
      unfold getCachedWeather setCachedWeather
      rw [lookupL_setL_self]
      simp [h]
    rw [hg]
    exact ⟨rfl, lookupL_eraseL_self _ k (nodup_setL c k _ hnd)⟩
  · intro h env input henv hkey hk0
    have htr := flow_trace_ne_nil env input (valid_of_cacheKey input k hkey)
    have hg : getCachedWeather (setCachedWeather c k v now) k t =
        (none, eraseL (setCachedWeather c k v now) k) := by
      unfold getCachedWeather setCachedWeather
      rw [lookupL_setL_self]
      simp [h]
    simp only [getWeatherData, hkey, if_neg hk0, henv, hg]
    rcases hf : getWeatherDataFlow env input with ⟨r, tr⟩
    rw [hf] at htr
    cases r <;> simp_all

/-- C2 witness: the cache round-trip at concrete values: a put at time 1000
under key "london" is hit at time 1500 with the stored snapshot, misses at
the expiry instant, and a `getWeatherData` call at the expiry instant
issues fetches again. -/
theorem cache_put_get_ttl_witness :
    lookupL (setCachedWeather [] "london" outFix 1000) "london" =
        some { data := outFix, expiry := 1000 + CACHE_TTL_MS } ∧
    getCachedWeather (setCachedWeather [] "london" outFix 1000) "london" 1500 =
      (some outFix, setCachedWeather [] "london" outFix 1000) ∧
    (getCachedWeather (setCachedWeather [] "london" outFix 1000) "london"
        (1000 + CACHE_TTL_MS)).1 = none ∧
    (getWeatherData { envParis with nowMs := 1000 + CACHE_TTL_MS }
        (setCachedWeather [] "london" outFix 1000)
        ⟨some "London", none, none⟩).2.2 ≠ [] := by
  have h1 := cache_put_get_ttl [] "london" outFix 1000 1500 (by decide)
  have h2 := cache_put_get_ttl [] "london" outFix 1000 (1000 + CACHE_TTL_MS)
    (by decide)
  exact ⟨h1.1, h1.2.1 (by decide), (h2.2.2.1 (by omega)).1,
    h2.2.2.2 (by omega) _ _ rfl (by decide) (by decide)⟩

/-- C6: a truthy location string yields the trimmed lowercased key (so
"  London  " gives "london"); a coordinate-only query yields the
`lat:lon` key with each coordinate at two decimals; (51.507, -0.1278) and
(51.5074, -0.12781) derive the same key "51.51:-0.13", and within the TTL a
put under either query's key is a hit for the other's key. -/
theorem cache_key_derivation :
    (∀ (s : String) (la lo : Option ℚ), s ≠ "" →
      getCacheKey ⟨some s, la, lo⟩ = some (jsToLower (jsTrim s))) ∧
    (∀ la lo : ℚ, getCacheKey ⟨none, some la, some lo⟩ =
      some (toFixed2 la ++ ":" ++ toFixed2 lo)) ∧
    getCacheKey ⟨some "  London  ", none, none⟩ = some "london" ∧
    getCacheKey q51a = some "51.51:-0.13" ∧
    getCacheKey q51b = some "51.51:-0.13" ∧
    (∀ (c : Cache) (v : GetWeatherDataOutput) (now t : ℤ) (k k' : String),
      getCacheKey q51a = some k → getCacheKey q51b = some k' →
      t < now + CACHE_TTL_MS →
      (getCachedWeather (setCachedWeather c k v now) k' t).1 = some v ∧
      (getCachedWeather (setCachedWeather c k' v now) k t).1 = some v) := by
  have hka : getCacheKey q51a = some "51.51:-0.13" := by
    norm_num [getCacheKey, q51a, coordKey, toFixed2, fixed2abs, twoDigits]
    decide
  have hkb : getCacheKey q51b = some "51.51:-0.13" := by
    norm_num [getCacheKey, q51b, coordKey, toFixed2, fixed2abs, twoDigits]
    decide
  refine ⟨fun s la lo hs => by simp [getCacheKey, hs], fun la lo => rfl,
    by decide, hka, hkb, fun c v now t k k' hk hk' ht => ?_⟩
  rw [hka] at hk
  rw [hkb] at hk'
  obtain rfl : "51.51:-0.13" = k := Option.some.inj hk
  obtain rfl : "51.51:-0.13" = k' := Option.some.inj hk'
  rw [get_after_put_hit c _ v now t ht]
  exact ⟨rfl, rfl⟩

/-- C7: the provider-to-application condition table is exactly
Clear↦Sunny, Clouds↦Cloudy, Rain↦Rainy, Drizzle↦Rainy, Snow↦Snowy,
Thunderstorm↦Thunderstorm, Mist↦Fog, Fog↦Fog, Haze↦Haze, any other string
maps to Sunny; and the Paris scenario (main "Rain", temp 18.4) yields
condition Rainy and temperature 18. -/
theorem condition_mapping_table :
    mapWeatherCondition "Clear" = .Sunny ∧
    mapWeatherCondition "Clouds" = .Cloudy ∧
    mapWeatherCondition "Rain" = .Rainy ∧
    mapWeatherCondition "Drizzle" = .Rainy ∧
    mapWeatherCondition "Snow" = .Snowy ∧
    mapWeatherCondition "Thunderstorm" = .Thunderstorm ∧
    mapWeatherCondition "Mist" = .Fog ∧
    mapWeatherCondition "Fog" = .Fog ∧
    mapWeatherCondition "Haze" = .Haze ∧
    (∀ s : String,
      s ∉ (["Clear", "Clouds", "Rain", "Drizzle", "Snow", "Thunderstorm",
        "Mist", "Fog", "Haze"] : List String) →
      mapWeatherCondition s = .Sunny) ∧
    ((getWeatherDataFlow envParis inpParis).1.toOption.map
      (fun o => (o.condition, o.temperature))) = some (.Rainy, 18) := by
  refine ⟨rfl, rfl, rfl, rfl, rfl, rfl, rfl, rfl, rfl, ?_, ?_⟩
  · intro s hs
    simp only [List.mem_cons, List.not_mem_nil, or_false, not_or] at hs
    obtain ⟨h1, h2, h3, h4, h5, h6, h7, h8, h9⟩ := hs
    simp [mapWeatherCondition, h1, h2, h3, h4, h5, h6, h7, h8, h9]
  · have : jsRound (18.4 : ℚ) = 18 := by norm_num [jsRound]
    simp [getWeatherDataFlow, envParis, inpParis, truthyLoc, buildOutput,
      wdParis, fdEmpty, mapWeatherCondition, Except.toOption, this]

/-- C8 (amended): a non-success status from either provider call makes the
flow fail with an error carrying the status code and raw body; whenever
`getWeatherData` fails — validation, current-weather or forecast failure —
the resulting cache is a sublist of the original (no entry is ever added or
updated on a failure path; the only possible change is lazy removal of an
already-expired entry, see `failure_cache_change_cex`). -/
theorem failure_aborts_and_never_populates (env : FlowEnv) (c : Cache)
    (input : GetWeatherDataInput) :
    (∀ st body, (truthyLoc input || hasCoords input) = true →
      env.weatherResp = .httpError st body →
      getWeatherDataFlow env input =
        (.error (weatherFailMsg st body), [.weather])) ∧
    (∀ st body wd, (truthyLoc input || hasCoords input) = true →
      env.weatherResp = .ok wd → env.forecastResp = .httpError st body →
      getWeatherDataFlow env input =
        (.error (forecastFailMsg st body), [.weather, .forecast])) ∧
    (∀ e, (getWeatherData env c input).1 = .error e →
      (getWeatherDataFlow env input).1 = .error e ∧
      (getWeatherData env c input).2.1.Sublist c) := by
  refine ⟨?_, ?_, ?_⟩
  · intro st body hv hw
    simp [getWeatherDataFlow, hv, hw]
  · intro st body wd hv hw hf
    simp [getWeatherDataFlow, hv, hw, hf]
  · intro e
    unfold getWeatherData
    cases hkey : getCacheKey input with
    | none => exact fun he => ⟨he, List.Sublist.refl c⟩
    | some k =>
      by_cases hk0 : k = ""
      · simp only [if_pos hk0]
        exact fun he => ⟨he, List.Sublist.refl c⟩
      · simp only [if_neg hk0]
        have hsub := getCachedWeather_snd_sublist c k env.nowMs
        rcases hg : getCachedWeather c k env.nowMs with ⟨od, c1⟩
        rw [hg] at hsub
        cases od with
        | some d => simp
        | none =>
          rcases hf : getWeatherDataFlow env input with ⟨r, tr⟩
          cases r with
          | ok out => simp
          | error err => exact fun he => ⟨by simpa using he, by simpa using hsub⟩

/-- C8 counterexample: with an expired entry for "paris" in the cache and a
failing current-weather call, the `getWeatherData` call fails yet the cache
after the call differs from the cache before it (the expired entry was
lazily deleted during the lookup), refuting "the cache is left unchanged". -/
theorem failure_cache_change_cex :
    envFail.weatherResp = .httpError 500 "boom" ∧
    (getWeatherData envFail cExpired inpParis).1 =
      .error (weatherFailMsg 500 "boom") ∧
    (getWeatherData envFail cExpired inpParis).2.1 ≠ cExpired := by
  refine ⟨rfl, ?_, ?_⟩ <;>
    simp [getWeatherData, getWeatherDataFlow, getCachedWeather, envFail,
      cExpired, inpParis, getCacheKey, jsTrim, jsToLower, isJsSpace,
      truthyLoc, lookupL, eraseL, setCachedWeather, setL]

theorem jsTrim_eq_empty_of_all_space (s : String)
    (h : ∀ ch ∈ s.data, isJsSpace ch) : jsTrim s = "" := by
  unfold jsTrim
  rw [List.dropWhile_eq_nil_iff.mpr h]
  rfl

/-- C10: a query whose location is a non-empty all-whitespace string derives
the empty cache key, and `getWeatherData` then bypasses the cache entirely:
it returns exactly the flow's result, leaves the cache untouched, and the
flow issues fetches (so every such call, whatever the cache holds, runs the
pipeline). -/
theorem whitespace_location_bypasses_cache (s : String) (la lo : Option ℚ)
    (env : FlowEnv) (c : Cache) (h1 : s ≠ "")
    (h2 : ∀ ch ∈ s.data, isJsSpace ch) :
    getCacheKey ⟨some s, la, lo⟩ = some "" ∧
    getWeatherData env c ⟨some s, la, lo⟩ =
      ((getWeatherDataFlow env ⟨some s, la, lo⟩).1, c,
        (getWeatherDataFlow env ⟨some s, la, lo⟩).2) ∧
    (getWeatherDataFlow env ⟨some s, la, lo⟩).2 ≠ [] := by
  have hkey : getCacheKey ⟨some s, la, lo⟩ = some "" := by
    simp [getCacheKey, h1, jsTrim_eq_empty_of_all_space s h2, jsToLower]
  refine ⟨hkey, ?_, ?_⟩
  · simp [getWeatherData, hkey]
  · exact flow_trace_ne_nil env _ (by simp [truthyLoc, h1])

/-- C10 witness: the single-space location query at a concrete environment
and empty cache: key is `some ""`, the call equals the bare flow call with
the cache unchanged, and fetches are issued. -/
theorem whitespace_location_bypasses_cache_witness :
    getCacheKey ⟨some " ", none, none⟩ = some "" ∧
    getWeatherData envParis [] ⟨some " ", none, none⟩ =
      ((getWeatherDataFlow envParis ⟨some " ", none, none⟩).1, [],
        (getWeatherDataFlow envParis ⟨some " ", none, none⟩).2) ∧
    (getWeatherDataFlow envParis ⟨some " ", none, none⟩).2 ≠ [] :=
  whitespace_location_bypasses_cache " " none none envParis []
    (by decide) (by decide)

theorem lookupL_updateL {α : Type} (m : List (String × α)) (d k : String)
    (f : α → α) :
    lookupL (updateL m d f) k =
      if d = k then (lookupL m k).map f else lookupL m k := by
  induction m with
  | nil => simp [updateL, lookupL]
  | cons kv rest ih =>
    obtain ⟨k', v⟩ := kv
    by_cases h1 : k' = d
    · rw [show updateL ((k', v) :: rest) d f = (k', f v) :: updateL rest d f
        from by simp only [updateL]; rw [if_pos h1]]
      by_cases h2 : k' = k
      · have hdk : d = k := by rw [← h1]; exact h2
        simp [lookupL, h2, hdk]
      · have hdk : ¬d = k := fun hh => h2 (h1.trans hh)
        simp [lookupL, h2, hdk, ih]
    · rw [show updateL ((k', v) :: rest) d f = (k', v) :: updateL rest d f
        from by simp only [updateL]; rw [if_neg h1]]
      by_cases h2 : k' = k
      · have hdk : ¬d = k := fun hh => h1 (h2.trans hh.symm)
        simp [lookupL, h2, hdk]
      · simp [lookupL, h2, ih]

theorem lookupL_append_single {α : Type} (m : List (String × α))
    (k d : String) (a : α) :
    lookupL (m ++ [(d, a)]) k =
      match lookupL m k with
      | some v => some v
      | none => if d = k then some a else none := by
  induction m with
  | nil => simp [lookupL]
  | cons kv rest ih =>
    obtain ⟨k', v⟩ := kv
    by_cases h : k' = k <;> simp [lookupL, h, ih]

theorem map_fst_updateL {α : Type} (m : List (String × α)) (d : String)
    (f : α → α) : (updateL m d f).map Prod.fst = m.map Prod.fst := by
  induction m with
  | nil => rfl
  | cons kv rest ih =>
    obtain ⟨k', v⟩ := kv
    by_cases h : k' = d <;> simp [updateL, h, ih]

theorem lookupL_dailyStep (label : ℤ → String) (m : List (String × DailyAcc))
    (s : ForecastSample) (k : String) :
    lookupL (dailyStep label m s) k =
      if label s.dt = k then
        groupOut k (lookupL m k) [s]
      else lookupL m k := by
  unfold dailyStep
  by_cases hd : label s.dt = k
  · subst hd
    cases hm : lookupL m (label s.dt) with
    | some a =>
      simp only [hm, Option.isSome_some, if_true, if_pos rfl]
      rw [lookupL_updateL]
      simp [hm, groupOut]
    | none =>
      simp only [hm, Option.isSome_none, Bool.false_eq_true, if_false,
        if_pos rfl]
      rw [lookupL_updateL]
      simp only [if_pos rfl, lookupL_append_single, hm]
      simp [groupOut]
  · rw [if_neg hd]
    cases hm : lookupL m (label s.dt) with
    | some a =>
      simp only [hm, Option.isSome_some, if_true]
      rw [lookupL_updateL, if_neg hd]
    | none =>
      simp only [hm, Option.isSome_none, Bool.false_eq_true, if_false]
      rw [lookupL_updateL, if_neg hd, lookupL_append_single]
      cases lookupL m k <;> simp [hd]

theorem groupOut_cons (k : String) (o : Option DailyAcc)
    (s : ForecastSample) (fs : List ForecastSample) :
    groupOut k (groupOut k o [s]) fs = groupOut k o (s :: fs) := by
  cases o <;> simp [groupOut]

theorem lookupL_foldl_dailyStep (label : ℤ → String) (l : List ForecastSample) :
    ∀ (m : List (String × DailyAcc)) (k : String),
      lookupL (l.foldl (dailyStep label) m) k =
        groupOut k (lookupL m k) (l.filter (fun s => label s.dt = k)) := by
  induction l with
  | nil =>
    intro m k
    cases h : lookupL m k <;> simp [groupOut, h]
  | cons s rest ih =>
    intro m k
    rw [List.foldl_cons, ih]
    by_cases hd : label s.dt = k
    · rw [lookupL_dailyStep, if_pos hd, groupOut_cons]
      simp [List.filter_cons, hd]
    · rw [lookupL_dailyStep, if_neg hd]
      simp [List.filter_cons, hd]

theorem map_fst_dailyStep (label : ℤ → String) (m : List (String × DailyAcc))
    (s : ForecastSample) :
    (dailyStep label m s).map Prod.fst =
      if label s.dt ∈ m.map Prod.fst then m.map Prod.fst
      else m.map Prod.fst ++ [label s.dt] := by
  unfold dailyStep
  by_cases hm : label s.dt ∈ m.map Prod.fst
  · have : lookupL m (label s.dt) ≠ none := fun hnone =>
      ((lookupL_eq_none_iff m (label s.dt)).mp hnone) hm
    cases hl : lookupL m (label s.dt) with
    | none => exact absurd hl this
    | some a =>
      simp only [hl, Option.isSome_some, if_true, if_pos hm]
      exact map_fst_updateL _ _ _
  · have hl : lookupL m (label s.dt) = none := (lookupL_eq_none_iff _ _).mpr hm
    simp only [hl, Option.isSome_none, Bool.false_eq_true, if_false, if_neg hm]
    rw [map_fst_updateL]
    simp

theorem map_fst_foldl_dailyStep (label : ℤ → String) (l : List ForecastSample) :
    ∀ m : List (String × DailyAcc),
      (l.foldl (dailyStep label) m).map Prod.fst =
        addKeys (m.map Prod.fst) (l.map (fun s => label s.dt)) := by
  induction l with
  | nil => intro m; rfl
  | cons s rest ih =>
    intro m
    rw [List.foldl_cons, List.map_cons, ih, addKeys, map_fst_dailyStep]

theorem nodup_addKeys (ds : List String) :
    ∀ ks : List String, ks.Nodup → (addKeys ks ds).Nodup := by
  induction ds with
  | nil => intro ks h; exact h
  | cons d rest ih =>
    intro ks h
    rw [addKeys]
    by_cases hm : d ∈ ks
    · rw [if_pos hm]; exact ih ks h
    · rw [if_neg hm]
      exact ih (ks ++ [d]) (by simp [List.nodup_append, h, hm])

theorem lookupL_eq_of_mem {α : Type} (m : List (String × α)) (k : String)
    (v : α) (hnd : (m.map Prod.fst).Nodup) (hm : (k, v) ∈ m) :
    lookupL m k = some v := by
  induction m with
  | nil => cases hm
  | cons kv rest ih =>
    obtain ⟨k', v'⟩ := kv
    simp only [List.map_cons, List.nodup_cons] at hnd
    rcases List.mem_cons.mp hm with heq | htl
    · injection heq with h1 h2
      subst h1
      subst h2
      simp [lookupL]
    · have hk : k' ≠ k := by
        intro he
        subst he
        exact hnd.1 (by simpa using List.mem_map_of_mem Prod.fst htl)
      simp only [lookupL, if_neg hk]
      exact ih hnd.2 htl

theorem foldl_updAcc_day (l : List ForecastSample) :
    ∀ a : DailyAcc, (l.foldl updAcc a).day = a.day := by
  induction l with
  | nil => intro a; rfl
  | cons s rest ih => intro a; rw [List.foldl_cons, ih]; rfl

theorem foldl_updAcc_condition (l : List ForecastSample) :
    ∀ a : DailyAcc, (l.foldl updAcc a).condition = a.condition := by
  induction l with
  | nil => intro a; rfl
  | cons s rest ih => intro a; rw [List.foldl_cons, ih]; rfl

theorem foldl_updAcc_humidity (l : List ForecastSample) :
    ∀ a : DailyAcc, (l.foldl updAcc a).humidity =
      l.foldl (fun r s => (r + s.humidity) / 2) a.humidity := by
  induction l with
  | nil => intro a; rfl
  | cons s rest ih => intro a; rw [List.foldl_cons, ih]; rfl

theorem foldl_updAcc_tempHigh (l : List ForecastSample) :
    ∀ a : DailyAcc, (l.foldl updAcc a).tempHigh =
      l.foldl (fun r s => jsMax r s.temp_max) a.tempHigh := by
  induction l with
  | nil => intro a; rfl
  | cons s rest ih => intro a; rw [List.foldl_cons, ih]; rfl

theorem foldl_updAcc_tempLow (l : List ForecastSample) :
    ∀ a : DailyAcc, (l.foldl updAcc a).tempLow =
      l.foldl (fun r s => jsMin r s.temp_min) a.tempLow := by
  induction l with
  | nil => intro a; rfl
  | cons s rest ih => intro a; rw [List.foldl_cons, ih]; rfl

theorem dailyFold_entry_spec (label : ℤ → String) (l : List ForecastSample)
    (k : String) (acc : DailyAcc) (h : (k, acc) ∈ dailyFold label l) :
    ∃ f fs, l.filter (fun s => label s.dt = k) = f :: fs ∧
      acc = fs.foldl updAcc (updAcc (initAcc k f) f) := by
  have hnd : ((dailyFold label l).map Prod.fst).Nodup := by
    rw [dailyFold, map_fst_foldl_dailyStep]
    exact nodup_addKeys _ _ List.nodup_nil
  have hlk : lookupL (dailyFold label l) k = some acc :=
    lookupL_eq_of_mem _ k acc hnd h
  rw [dailyFold, lookupL_foldl_dailyStep] at hlk
  simp only [lookupL] at hlk
  cases hfil : l.filter (fun s => label s.dt = k) with
  | nil => rw [hfil] at hlk; exact absurd hlk (by simp [groupOut])
  | cons f fs =>
    rw [hfil] at hlk
    simp only [groupOut, Option.some.injEq] at hlk
    exact ⟨f, fs, rfl, hlk.symm⟩

theorem dailyFold_day_eq (label : ℤ → String) (l : List ForecastSample)
    (k : String) (acc : DailyAcc) (h : (k, acc) ∈ dailyFold label l) :
    acc.day = k := by
  obtain ⟨f, fs, hfil, hacc⟩ := dailyFold_entry_spec label l k acc h
  rw [hacc, foldl_updAcc_day]
  rfl

/-- C3: each output day's humidity is the rounded result of the iterative
pairwise-averaging fold over that day's samples in order, starting from 0:
at each sample the running value becomes (running + sample humidity) / 2 —
the order-dependent formula as written, not the arithmetic mean. -/
theorem daily_humidity_pairwise_fold (label : ℤ → String)
    (l : List ForecastSample) :
    ∀ d ∈ buildForecast label l,
      d.humidity = jsRound ((l.filter (fun s => label s.dt = d.day)).foldl
        (fun r s => (r + s.humidity) / 2) 0) := by
  intro d hd
  rw [buildForecast] at hd
  obtain ⟨⟨k, acc⟩, hkv, rfl⟩ := List.mem_map.mp hd
  have hmem : (k, acc) ∈ dailyFold label l := List.mem_of_mem_take hkv
  obtain ⟨f, fs, hfil, hacc⟩ := dailyFold_entry_spec label l k acc hmem
  have hday : (roundAcc acc).day = k := by
    simp [roundAcc, dailyFold_day_eq label l k acc hmem]
  show (roundAcc acc).humidity = _
  rw [hday, hfil]
  simp only [roundAcc]
  congr 1
  rw [hacc, foldl_updAcc_humidity, List.foldl_cons]
  rfl

/-- C3 witness: on the synthetic 3-sample day with humidities [50, 60, 70]
the output day is a member of the forecast, its humidity is the pairwise
fold of its samples, and that value is 56 (not the arithmetic mean 60). -/
theorem daily_humidity_pairwise_fold_witness :
    dW3 ∈ buildForecast lblFix dayList3 ∧
    dW3.humidity = jsRound ((dayList3.filter
      (fun s => lblFix s.dt = dW3.day)).foldl
      (fun r s => (r + s.humidity) / 2) 0) ∧
    dW3.humidity = 56 := by
  have hmem : dW3 ∈ buildForecast lblFix dayList3 := by
    norm_num [buildForecast, dailyFold, dailyStep, lookupL, updateL, initAcc,
      updAcc, jsMax, jsMin, roundAcc, jsRoundNum, jsRound, lblFix, dayList3,
      sampDay, mapWeatherCondition, dW3]
  exact ⟨hmem, daily_humidity_pairwise_fold lblFix dayList3 dW3 hmem, rfl⟩

/-- C9: the running humidity starts at 0 and the pairwise step applies to
every sample of the day including the first, so a day group holding exactly
one sample with humidity h outputs round(h / 2), not round(h). -/
theorem single_sample_humidity_half (label : ℤ → String)
    (l : List ForecastSample) (d : DailyData) (s : ForecastSample)
    (hd : d ∈ buildForecast label l)
    (hfil : l.filter (fun x => label x.dt = d.day) = [s]) :
    d.humidity = jsRound (s.humidity / 2) := by
  rw [buildForecast] at hd
  obtain ⟨⟨k, acc⟩, hkv, rfl⟩ := List.mem_map.mp hd
  have hmem : (k, acc) ∈ dailyFold label l := List.mem_of_mem_take hkv
  obtain ⟨f, fs, hfil', hacc⟩ := dailyFold_entry_spec label l k acc hmem
  have hday : (roundAcc acc).day = k := by
    simp [roundAcc, dailyFold_day_eq label l k acc hmem]
  rw [hday] at hfil
  rw [hfil] at hfil'
  injection hfil' with h1 h2
  subst h1
  subst h2
  show (roundAcc acc).humidity = _
  simp only [roundAcc]
  rw [hacc, List.foldl_nil]
  show jsRound (((initAcc k s).humidity + s.humidity) / 2) = _
  rw [show (initAcc k s).humidity = 0 from rfl, zero_add]

/-- C9 witness: the single-sample day with humidity 51 is in the forecast
output with humidity 26 = round(51 / 2) (a true rounding of the sample's
own humidity would give 51). -/
theorem single_sample_humidity_half_witness :
    dW9 ∈ buildForecast lblFix dayList1 ∧
    dW9.humidity = jsRound ((sampDay 0 0 51).humidity / 2) ∧
    dW9.humidity = 26 := by
  have hmem : dW9 ∈ buildForecast lblFix dayList1 := by
    norm_num [buildForecast, dailyFold, dailyStep, lookupL, updateL, initAcc,
      updAcc, jsMax, jsMin, roundAcc, jsRoundNum, jsRound, lblFix, dayList1,
      sampDay, mapWeatherCondition, dW9]
  have hfil : dayList1.filter (fun x => lblFix x.dt = dW9.day) =
      [sampDay 0 0 51] := by
    simp [dayList1, lblFix, dW9]
  exact ⟨hmem,
    single_sample_humidity_half lblFix dayList1 dW9 (sampDay 0 0 51) hmem hfil,
    rfl⟩

/-- C5: the forecast groups samples by day label in first-seen order and
keeps only the first 7 groups; each output day's high is the rounded rolling
maximum (seeded with -Infinity) of the day's sample max-temps and its low
the rounded rolling minimum (seeded with Infinity) of the day's sample
min-temps; on the synthetic 3-sample day with max temps [10, 15, 5] and min
temps [2, -1, 4] this gives tempHigh 15 and tempLow -1. -/
theorem daily_grouping_highlow (label : ℤ → String) (l : List ForecastSample) :
    ((buildForecast label l).map (fun d => d.day) =
      (addKeys [] (l.map (fun s => label s.dt))).take 7) ∧
    (buildForecast label l).length ≤ 7 ∧
    (∀ d ∈ buildForecast label l,
      d.tempHigh = jsRoundNum ((l.filter (fun s => label s.dt = d.day)).foldl
        (fun r s => jsMax r s.temp_max) JsNum.negInf) ∧
      d.tempLow = jsRoundNum ((l.filter (fun s => label s.dt = d.day)).foldl
        (fun r s => jsMin r s.temp_min) JsNum.posInf)) ∧
    (buildForecast lblFix dayList3).map (fun d => (d.tempHigh, d.tempLow)) =
      [(15, -1)] := by
  refine ⟨?_, ?_, ?_, ?_⟩
  · rw [buildForecast, List.map_map]
    have h1 : ((dailyFold label l).take 7).map
        ((fun d => d.day) ∘ (fun kv => roundAcc kv.2)) =
        ((dailyFold label l).take 7).map Prod.fst := by
      refine List.map_congr_left (fun kv hkv => ?_)
      obtain ⟨k, acc⟩ := kv
      simp [roundAcc,
        dailyFold_day_eq label l k acc (List.mem_of_mem_take hkv)]
    rw [h1, List.map_take, dailyFold, map_fst_foldl_dailyStep]
    rfl
  · rw [buildForecast, List.length_map]
    exact List.length_take_le _ _
  · intro d hd
    rw [buildForecast] at hd
    obtain ⟨⟨k, acc⟩, hkv, rfl⟩ := List.mem_map.mp hd
    have hmem : (k, acc) ∈ dailyFold label l := List.mem_of_mem_take hkv
    obtain ⟨f, fs, hfil, hacc⟩ := dailyFold_entry_spec label l k acc hmem
    have hday : (roundAcc acc).day = k := by
      simp [roundAcc, dailyFold_day_eq label l k acc hmem]
    constructor
    · show (roundAcc acc).tempHigh = _
      rw [hday, hfil]
      simp only [roundAcc]
      congr 1
      rw [hacc, foldl_updAcc_tempHigh, List.foldl_cons]
      rfl
    · show (roundAcc acc).tempLow = _
      rw [hday, hfil]
      simp only [roundAcc]
      congr 1
      rw [hacc, foldl_updAcc_tempLow, List.foldl_cons]
      rfl
  · norm_num [buildForecast, dailyFold, dailyStep, lookupL, updateL, initAcc,
      updAcc, jsMax, jsMin, roundAcc, jsRoundNum, jsRound, lblFix, dayList3,
      sampDay, mapWeatherCondition]

/-- C4: when the flow succeeds, the hourly output is built by filtering the
forecast samples whose timestamp is at most 24 hours after the call time and
then taking at most the first 8; hence it never exceeds 8 entries and every
entry comes from a sample within the 24-hour window. -/
theorem hourly_filter_take_bound (env : FlowEnv) (input : GetWeatherDataInput)
    (out : GetWeatherDataOutput) (fd : Forecast)
    (hok : (getWeatherDataFlow env input).1 = .ok out)
    (hfd : env.forecastResp = .ok fd) :
    out.hourly = ((fd.list.filter (fun h =>
        h.dt * 1000 ≤ env.nowMs + 24 * 60 * 60 * 1000)).take 8).map
        (mkHourly env.fmtHour fd.timezone) ∧
    out.hourly.length ≤ 8 ∧
    (∀ e ∈ out.hourly, ∃ s, s ∈ fd.list ∧
      s.dt * 1000 ≤ env.nowMs + 24 * 60 * 60 * 1000 ∧
      e = mkHourly env.fmtHour fd.timezone s) := by
  have hh : out.hourly = buildHourly env.fmtHour fd.timezone env.nowMs fd.list := by
    unfold getWeatherDataFlow at hok
    by_cases hv : (truthyLoc input || hasCoords input) = true
    · rw [if_pos hv] at hok
      cases hw : env.weatherResp with
      | httpError st body => rw [hw] at hok; simp at hok
      | ok wd =>
        rw [hw, hfd] at hok
        simp only at hok
        injection hok with hout
        rw [← hout]
        rfl
    · rw [if_neg hv] at hok
      simp at hok
  rw [hh]
  refine ⟨rfl, ?_, ?_⟩
  · rw [buildHourly, List.length_map]
    exact le_trans (List.length_take_le _ _) (by norm_num)
  · intro e he
    rw [buildHourly] at he
    obtain ⟨s, hs, rfl⟩ := List.mem_map.mp he
    have hs' : s ∈ fd.list.filter (fun h =>
        h.dt * 1000 ≤ env.nowMs + 24 * 60 * 60 * 1000) :=
      List.mem_of_mem_take hs
    obtain ⟨hmem, hcond⟩ := List.mem_filter.mp hs'
    exact ⟨s, hmem, by simpa using hcond, rfl⟩

/-- C4 witness: at call time 0, on a forecast whose samples straddle the
24-hour boundary (nine inside the window, two beyond), the successful flow's
hourly list is the filter-then-take-8 image of the sample list, has at most
8 entries, and draws every entry from a sample within the window. -/
theorem hourly_filter_take_bound_witness :
    (buildOutput envHourly wdParis fdHourly).hourly =
      ((fdHourly.list.filter (fun h =>
        h.dt * 1000 ≤ envHourly.nowMs + 24 * 60 * 60 * 1000)).take 8).map
        (mkHourly envHourly.fmtHour fdHourly.timezone) ∧
    (buildOutput envHourly wdParis fdHourly).hourly.length ≤ 8 ∧
    (∀ e ∈ (buildOutput envHourly wdParis fdHourly).hourly, ∃ s,
      s ∈ fdHourly.list ∧
      s.dt * 1000 ≤ envHourly.nowMs + 24 * 60 * 60 * 1000 ∧
      e = mkHourly envHourly.fmtHour fdHourly.timezone s) :=
  hourly_filter_take_bound envHourly inpParis
    (buildOutput envHourly wdParis fdHourly) fdHourly (by rfl) (by rfl)
